import Mathlib

/-!
Verification of the DocuMind RAG server (src/server/index.js, src/server/pdf-worker.js):
a shallow embedding of the session registry, the completion-callback handlers, the
chat endpoint's retrieval/fallback pipeline, and the PDF ingestion worker,
with theorems settling the specification's claims about them.
-/

namespace DocuMind

/-- A File Record as stored in the per-session arrays `uploadedPdfFiles[sessionId]` /
`uploadedAudioFiles[sessionId]` (index.js).  `uploadedAt` is set by the upload
endpoints; the completion handlers' insert branch omits it, hence `Option`.
`updatedAt` is absent until a completion callback touches the record. -/
structure FileRecord where
  filename : String
  status : String
  uploadedAt : Option Nat
  updatedAt : Option Nat
  transcript : Option String
deriving DecidableEq, Repr

/-- `files.some(f => f.status === 'ready')` (index.js lines 330-331). -/
def hasReady (files : List FileRecord) : Bool :=
  files.any (fun f => f.status == "ready")

/-- The body of `POST /pdf/complete` (index.js lines 177-190) acting on one session's
array: `findIndex` by filename, push `{filename, status, updatedAt}` when not found,
otherwise assign `status` and `updatedAt` to the first match. -/
def completeUpdate (filename status : String) (now : Nat) : List FileRecord → List FileRecord
  | [] => [{ filename := filename, status := status, uploadedAt := none,
             updatedAt := some now, transcript := none }]
  | r :: rs =>
    if r.filename == filename then
      { r with status := status, updatedAt := some now } :: rs
    else
      r :: completeUpdate filename status now rs

/-- JavaScript truthiness of the optional `transcript` field: `undefined`, `null`
and the empty string are falsy. -/
def truthy (t : Option String) : Bool :=
  match t with
  | none => false
  | some s => s != ""

/-- The body of `POST /audio/complete` (index.js lines 290-307) acting on one
session's array: like the PDF handler, but the insert branch stores the transcript
as given and the update branch overwrites it only when truthy
(`if (transcript) arr[idx].transcript = transcript`). -/
def audioCompleteUpdate (filename status : String) (transcript : Option String)
    (now : Nat) : List FileRecord → List FileRecord
  | [] => [{ filename := filename, status := status, uploadedAt := none,
             updatedAt := some now, transcript := transcript }]
  | r :: rs =>
    if r.filename == filename then
      { r with status := status, updatedAt := some now,
               transcript := if truthy transcript then transcript else r.transcript } :: rs
    else
      r :: audioCompleteUpdate filename status transcript now rs

/-- Request body of a completion callback.  `none` models an absent field, on which
the destructuring defaults `sessionId = 'default'` and `status = 'ready'` fire. -/
structure CompleteBody where
  sessionId : Option String
  filename : Option String
  status : Option String
  transcript : Option String
deriving DecidableEq, Repr

/-- `POST /pdf/complete` (index.js lines 164-198): apply the defaults, reject a
missing or falsy `sessionId`/`filename` with a 400 error, otherwise update the
session's array. -/
def pdfCompleteHandler (body : CompleteBody) (files : List FileRecord) (now : Nat) :
    Except String (List FileRecord) :=
  let sessionId := body.sessionId.getD "default"
  let status := body.status.getD "ready"
  match body.filename with
  | none => .error "sessionId and filename required"
  | some fn =>
    if sessionId == "" || fn == "" then .error "sessionId and filename required"
    else .ok (completeUpdate fn status now files)

/-- `POST /audio/complete` (index.js lines 275-315): same shape with the transcript. -/
def audioCompleteHandler (body : CompleteBody) (files : List FileRecord) (now : Nat) :
    Except String (List FileRecord) :=
  let sessionId := body.sessionId.getD "default"
  let status := body.status.getD "ready"
  match body.filename with
  | none => .error "sessionId and filename required"
  | some fn =>
    if sessionId == "" || fn == "" then .error "sessionId and filename required"
    else .ok (audioCompleteUpdate fn status body.transcript now files)

/-- Operations the server performs on one session's file array: the upload endpoint
pushes `{filename, status: 'processing', uploadedAt}` (index.js lines 115-121), and a
completion callback applies `completeUpdate` with the status defaulted to `'ready'`. -/
inductive RegOp where
  | upload (filename : String) (now : Nat)
  | complete (filename : String) (status : Option String) (now : Nat)
deriving DecidableEq, Repr

/-- One registry operation on a session's array. -/
def stepOp (op : RegOp) (arr : List FileRecord) : List FileRecord :=
  match op with
  | .upload fn now =>
      arr ++ [{ filename := fn, status := "processing", uploadedAt := some now,
                updatedAt := none, transcript := none }]
  | .complete fn st now => completeUpdate fn (st.getD "ready") now arr

/-- Run a sequence of registry operations. -/
def runOps (ops : List RegOp) (arr : List FileRecord) : List FileRecord :=
  ops.foldl (fun a op => stepOp op a) arr

/-- A status is terminal when it is `'ready'` or `'failed'`. -/
def isTerminal (s : String) : Bool :=
  s == "ready" || s == "failed"

/-- A registry operation whose effective status (after the `'ready'` default) is
terminal; uploads always qualify since they only append fresh records. -/
def opTerminalOnly (op : RegOp) : Bool :=
  match op with
  | .upload _ _ => true
  | .complete _ st _ => isTerminal (st.getD "ready")

/-- Status of the first record with the given filename (`find` by filename). -/
def findStatus (filename : String) (arr : List FileRecord) : Option String :=
  (arr.find? (fun r => r.filename == filename)).map (fun r => r.status)

/-- The session key an upload endpoint records:
`req.headers['x-session-id'] || 'default'` (index.js lines 97, 205). -/
def uploadSessionId (header : Option String) : String :=
  match header with
  | none => "default"
  | some h => if h == "" then "default" else h

/-- Metadata the PDF worker attaches to every stored chunk
(pdf-worker.js lines 80-94). -/
structure DocMetadata where
  source : String
  type : String
  sessionId : String
  processedAt : String
  chunkIndex : Nat
  totalChunks : Nat
  contentType : String
deriving DecidableEq, Repr

/-- A document/chunk as stored in and retrieved from a vector collection. -/
structure RetrievedDoc where
  pageContent : String
  metadata : DocMetadata
deriving DecidableEq, Repr

/-- Boolean substring test used by the worker's content-type hint
(`doc.pageContent.includes(...)`). -/
def hasSub (s pat : String) : Bool :=
  decide (List.IsInfix pat.data s.data)

/-- The content-type hint of pdf-worker.js lines 90-92. -/
def contentTypeHint (text : String) : String :=
  if hasSub text "Experience" then "experience"
  else if hasSub text "Education" then "education"
  else if hasSub text "Skill" then "skills"
  else "general"

/-- Tail of the worker's `splitDocs.forEach` tagging loop, carrying the running
chunk index. -/
def pdfTagGo (sessionId filename processedAt : String) (total : Nat) :
    Nat → List String → List RetrievedDoc
  | _, [] => []
  | i, t :: ts =>
      { pageContent := t,
        metadata := { source := filename, type := "pdf", sessionId := sessionId,
                      processedAt := processedAt, chunkIndex := i, totalChunks := total,
                      contentType := contentTypeHint t } }
        :: pdfTagGo sessionId filename processedAt total (i + 1) ts

/-- `splitDocs.forEach((doc, index) => doc.metadata = {...})`
(pdf-worker.js lines 80-94): tag every split chunk with the job's session id,
source filename, chunk index/total and content-type hint. -/
def pdfTagChunks (sessionId filename processedAt : String) (chunks : List String) :
    List RetrievedDoc :=
  pdfTagGo sessionId filename processedAt chunks.length 0 chunks

/-- Abstract similarity ranking of a collection against a query — the behaviour of
the vector search.  `retriever.invoke(q)` with `k` returns the `k` best-ranked. -/
abbrev Ranker := String → List RetrievedDoc → List RetrievedDoc

/-- `vectorStore.asRetriever({ k }).invoke(query)`: top-`k` of the ranked
collection. -/
def retrieverInvoke (rank : Ranker) (coll : List RetrievedDoc) (k : Nat)
    (query : String) : List RetrievedDoc :=
  (rank query coll).take k

/-- A retriever with the Qdrant server-side filter
`must: [{key: "metadata.sessionId", match: {value: sessionId}}]`: top-`k` of the
ranked session-filtered collection. -/
def retrieverInvokeFiltered (rank : Ranker) (coll : List RetrievedDoc)
    (sessionId : String) (k : Nat) (query : String) : List RetrievedDoc :=
  (rank query (coll.filter (fun d => d.metadata.sessionId == sessionId))).take k

/-- The chat endpoint's per-source retrieval (index.js lines 366-419).
Audio: filtered search with k=8; on a filter failure, unfiltered k=8 with a
client-side session filter.  PDF: filtered search with k=10; when that returns
nothing, a broader unfiltered k=12 search filtered client-side; on a filter
failure, unfiltered k=10 filtered client-side.  `filterFails` injects the
caught filter-search failure. -/
def chatRetrieve (rank : Ranker) (sourceIsAudio : Bool) (coll : List RetrievedDoc)
    (sessionId query : String) (filterFails : Bool) : List RetrievedDoc :=
  if sourceIsAudio then
    if filterFails then
      (retrieverInvoke rank coll 8 query).filter
        (fun d => d.metadata.sessionId == sessionId)
    else
      retrieverInvokeFiltered rank coll sessionId 8 query
  else
    if filterFails then
      (retrieverInvoke rank coll 10 query).filter
        (fun d => d.metadata.sessionId == sessionId)
    else
      let result := retrieverInvokeFiltered rank coll sessionId 10 query
      if result.length == 0 then
        (retrieverInvoke rank coll 12 query).filter
          (fun d => d.metadata.sessionId == sessionId)
      else result

/-- `result.map(doc => doc.pageContent).join("\n\n")`. -/
def joinDocs : List RetrievedDoc → String
  | [] => ""
  | [d] => d.pageContent
  | d :: d2 :: ds => d.pageContent ++ "\n\n" ++ joinDocs (d2 :: ds)

/-- The fallback retrieval (index.js lines 434-436): unfiltered k=20 search with
the empty query, filtered client-side by session id. -/
def chatFallbackDocs (rank : Ranker) (coll : List RetrievedDoc)
    (sessionId : String) : List RetrievedDoc :=
  (retrieverInvoke rank coll 20 "").filter (fun d => d.metadata.sessionId == sessionId)

/-- Context construction (index.js lines 424-445): join the primary results when
non-empty; otherwise attempt the fallback retrieval (unless it throws) and join
whatever of it belongs to the session, leaving the context empty when nothing
remains. -/
def chatContext (rank : Ranker) (result : List RetrievedDoc)
    (coll : List RetrievedDoc) (sessionId : String) (fallbackFails : Bool) : String :=
  if result.length > 0 then joinDocs result
  else if fallbackFails then ""
  else
    let sessionResults := chatFallbackDocs rank coll sessionId
    if sessionResults.length > 0 then joinDocs sessionResults else ""

/-- The early-return message of index.js line 338. -/
def noDocsMessage : String :=
  "I don't have any documents to search. Please upload a PDF or audio file first!"

/-- The placeholder context passed to the model when the context is empty
(index.js line 492). -/
def placeholderContext : String :=
  "No specific content available from the document."

/-- The JSON shapes `GET /chat` can answer with: the 400 for a missing query, the
early return `{message, docs: []}`, and the full
`{message, docs, source, contextLength}` produced after the model call. -/
inductive ChatResponse where
  | badRequest (error : String)
  | noDocs (message : String) (docs : List RetrievedDoc)
  | answer (message : String) (docs : List RetrievedDoc) (source : String)
           (contextLength : Nat)
deriving DecidableEq, Repr

/-- The docs list of a chat response (`[]` on the error shape). -/
def ChatResponse.docsOf : ChatResponse → List RetrievedDoc
  | .badRequest _ => []
  | .noDocs _ ds => ds
  | .answer _ ds _ _ => ds

/-- The `contextLength` field of a chat response (0 when absent). -/
def ChatResponse.contextLengthOf : ChatResponse → Nat
  | .badRequest _ => 0
  | .noDocs _ _ => 0
  | .answer _ _ _ n => n

/-- The `source` field of a chat response. -/
def ChatResponse.sourceOf : ChatResponse → Option String
  | .badRequest _ => none
  | .noDocs _ _ => none
  | .answer _ _ s _ => some s

/-- `GET /chat` (index.js lines 319-507).  `llm ctx q` abstracts
`chain.invoke({context: ctx, question: q}).content`.  Source selection: the audio
collection when the session has a ready audio file, otherwise the PDF collection
(lines 343-354) — a single collection per request.  Retrieval, context and
fallback as in `chatRetrieve`/`chatContext`; the model is then invoked with
`context || placeholder` and the response carries the primary `result` as `docs`
and `context.length` as `contextLength` (lines 487-501). -/
def chat (rank : Ranker) (llm : String → String → String)
    (audioFiles pdfFiles : List FileRecord)
    (audioColl pdfColl : List RetrievedDoc)
    (sessionId userQuery : String)
    (audioFilterFails pdfFilterFails fallbackFails : Bool) : ChatResponse :=
  if userQuery == "" then .badRequest "No query provided"
  else
    let hasReadyAudio := hasReady audioFiles
    let hasReadyPdf := hasReady pdfFiles
    if !hasReadyAudio && !hasReadyPdf then
      .noDocs noDocsMessage []
    else
      let sourceIsAudio := hasReadyAudio
      let coll := if sourceIsAudio then audioColl else pdfColl
      let result := chatRetrieve rank sourceIsAudio coll sessionId userQuery
        (if sourceIsAudio then audioFilterFails else pdfFilterFails)
      let context := chatContext rank result coll sessionId fallbackFails
      .answer
        (llm (if context == "" then placeholderContext else context) userQuery)
        result
        (if sourceIsAudio then "audio" else "pdf")
        context.length

/-- Outcome of one PDF worker job handler run (pdf-worker.js lines 28-161):
either the job completed (chunks stored, server notified with a status), or an
error was thrown — after a best-effort `failed` notification — and rethrown to
BullMQ (`throw error; // let BullMQ handle retries`). -/
inductive PdfJobOutcome where
  | completed (stored : List RetrievedDoc) (notifiedStatus : String)
  | errorRethrown (notifiedStatus : Option String)
deriving DecidableEq, Repr

/-- The catch block's notification guard (pdf-worker.js lines 139-147):
notify `failed` only when both `sessionId` and `filename` are truthy. -/
def failNotify (sessionId filename : String) : Option String :=
  if sessionId != "" && filename != "" then some "failed" else none

/-- External effects of a PDF job: the loader's result (`none` when
`loader.load()` throws, otherwise the list of page texts), the splitter, a
timestamp, and whether embedding/upsert succeeds. -/
structure PdfWorkerEnv where
  loadedDocs : Option (List String)
  splitChunks : List String → List String
  processedAt : String
  storageOk : Bool

/-- The PDF worker job handler (pdf-worker.js lines 28-161): missing payload,
a loader failure, an empty load (`docs.length === 0`, line 51) and a storage
failure all take the same path — notify `failed` and rethrow to the queue;
otherwise the tagged chunks are stored and the server is notified `ready`. -/
def pdfJob (env : PdfWorkerEnv) (sessionId filename : String)
    (base64Data : Option String) : PdfJobOutcome :=
  match base64Data with
  | none => .errorRethrown (failNotify sessionId filename)
  | some _ =>
    match env.loadedDocs with
    | none => .errorRethrown (failNotify sessionId filename)
    | some docs =>
      if docs.length == 0 then .errorRethrown (failNotify sessionId filename)
      else
        let splitDocs :=
          pdfTagChunks sessionId filename env.processedAt (env.splitChunks docs)
        if env.storageOk then .completed splitDocs "ready"
        else .errorRethrown (failNotify sessionId filename)

/-- A ranking that returns the collection in stored order, whatever the query. -/
def constRank : Ranker := fun _ l => l

/-- A ranking that answers only the empty query (used to realise a primary miss
with a successful fallback). -/
def emptyQueryRank : Ranker := fun q l => if q == "" then l else []

/-- A generation service that echoes its context. -/
def echoLlm : String → String → String := fun ctx _ => ctx

/-- A generation service with a constant output. -/
def constLlm (s : String) : String → String → String := fun _ _ => s

/-- A ready File Record used in concrete instances. -/
def readyRec : FileRecord :=
  { filename := "a.pdf", status := "ready", uploadedAt := some 0,
    updatedAt := some 1, transcript := none }

/-- A stored chunk of session "A". -/
def docA : RetrievedDoc :=
  { pageContent := "hello",
    metadata := { source := "a.pdf", type := "pdf", sessionId := "A",
                  processedAt := "t", chunkIndex := 0, totalChunks := 1,
                  contentType := "general" } }

/-- A stored chunk of session "B". -/
def docB : RetrievedDoc :=
  { pageContent := "other",
    metadata := { source := "b.pdf", type := "pdf", sessionId := "B",
                  processedAt := "t", chunkIndex := 0, totalChunks := 1,
                  contentType := "general" } }

/-- A freshly uploaded (still processing) File Record. -/
def procRec : FileRecord :=
  { filename := "a.pdf", status := "processing", uploadedAt := some 0,
    updatedAt := none, transcript := none }

/-- A completion-callback body that omits the `status` field. -/
def noStatusBody : CompleteBody :=
  { sessionId := some "A", filename := some "a.pdf", status := none,
    transcript := none }

end DocuMind

namespace DocuMind

/-! ## Helper lemmas -/

/-- After a completion update, the first record matching the filename carries the
supplied status. -/
theorem findStatus_completeUpdate (fn st : String) (now : Nat)
    (arr : List FileRecord) :
    findStatus fn (completeUpdate fn st now arr) = some st := by
  induction arr with
  | nil => simp [completeUpdate, findStatus]
  | cons r rs ih =>
    by_cases h : r.filename == fn
    · simp [completeUpdate, findStatus, h]
    · simp only [completeUpdate, h]
      simpa [findStatus, h] using ih

/-- Audio version of `findStatus_completeUpdate`. -/
theorem findStatus_audioCompleteUpdate (fn st : String) (tr : Option String)
    (now : Nat) (arr : List FileRecord) :
    findStatus fn (audioCompleteUpdate fn st tr now arr) = some st := by
  induction arr with
  | nil => simp [audioCompleteUpdate, findStatus]
  | cons r rs ih =>
    by_cases h : r.filename == fn
    · simp [audioCompleteUpdate, findStatus, h]
    · simp only [audioCompleteUpdate, h]
      simpa [findStatus, h] using ih

/-- Re-applying the same completion with a later timestamp collapses to a single
application at the later timestamp. -/
theorem completeUpdate_collapse (fn st : String) (t1 t2 : Nat)
    (arr : List FileRecord) :
    completeUpdate fn st t2 (completeUpdate fn st t1 arr)
      = completeUpdate fn st t2 arr := by
  induction arr with
  | nil => simp [completeUpdate]
  | cons r rs ih =>
    by_cases h : r.filename == fn
    · simp [completeUpdate, h]
    · simp [completeUpdate, h, ih]

/-- The second application of the same completion leaves every record's status
unchanged. -/
theorem completeUpdate_map_status (fn st : String) (t1 t2 : Nat)
    (arr : List FileRecord) :
    (completeUpdate fn st t2 (completeUpdate fn st t1 arr)).map FileRecord.status
      = (completeUpdate fn st t1 arr).map FileRecord.status := by
  induction arr with
  | nil => simp [completeUpdate]
  | cons r rs ih =>
    by_cases h : r.filename == fn
    · simp [completeUpdate, h]
    · simp [completeUpdate, h, ih]

/-- Audio version of `completeUpdate_collapse` (same transcript in both calls). -/
theorem audioCompleteUpdate_collapse (fn st : String) (tr : Option String)
    (t1 t2 : Nat) (arr : List FileRecord) :
    audioCompleteUpdate fn st tr t2 (audioCompleteUpdate fn st tr t1 arr)
      = audioCompleteUpdate fn st tr t2 arr := by
  induction arr with
  | nil =>
    by_cases ht : truthy tr <;> simp [audioCompleteUpdate, ht]
  | cons r rs ih =>
    by_cases h : r.filename == fn
    · by_cases ht : truthy tr <;> simp [audioCompleteUpdate, h, ht]
    · simp [audioCompleteUpdate, h, ih]

end DocuMind

namespace DocuMind

/-! ## C2 -/

/-- C2: for a session in which no media kind has a File Record with status
`ready`, the chat endpoint returns the fixed "no documents yet" message with an
empty sources list; the response is a constant over the generation service and
rankings, so the Generation Service is never invoked. -/
theorem chat_no_ready_sources (rank : Ranker) (llm : String → String → String)
    (audioFiles pdfFiles : List FileRecord) (audioColl pdfColl : List RetrievedDoc)
    (sessionId userQuery : String) (aff pff fb : Bool)
    (hq : userQuery ≠ "")
    (hA : hasReady audioFiles = false) (hP : hasReady pdfFiles = false) :
    chat rank llm audioFiles pdfFiles audioColl pdfColl sessionId userQuery aff pff fb
      = .noDocs noDocsMessage [] := by
  simp [chat, hq, hA, hP]

/-- Witness for `chat_no_ready_sources`. -/
theorem chat_no_ready_sources_wit :
    chat constRank echoLlm [procRec] [] [] [docA] "A" "q" true true true
      = .noDocs noDocsMessage [] :=
  chat_no_ready_sources constRank echoLlm [procRec] [] [] [docA] "A" "q"
    true true true (by decide) (by decide) (by decide)

/-! ## C4 -/

/-- C4 counterexample: a record already terminal (`ready`, `updatedAt = 1` after
the first callback) is changed by a second callback with the same terminal
status at time 2 — its `updatedAt` is refreshed, so the second application is
not a no-op on the record. -/
theorem complete_repeat_cex :
    completeUpdate "a" "ready" 2 (completeUpdate "a" "ready" 1 [])
      ≠ completeUpdate "a" "ready" 1 []
    ∧ findStatus "a" (completeUpdate "a" "ready" 1 []) = some "ready" := by
  decide

/-- C4 amended: invoking the completion callback a second time with the same
filename and the same terminal status leaves everything except `updatedAt`
unchanged — the statuses are untouched and the result equals a single
application at the second call's time; likewise for the audio handler with the
same transcript. -/
theorem complete_repeat_updates_time (arr : List FileRecord) (fn st : String)
    (tr : Option String) (t1 t2 : Nat) :
    completeUpdate fn st t2 (completeUpdate fn st t1 arr)
      = completeUpdate fn st t2 arr
    ∧ (completeUpdate fn st t2 (completeUpdate fn st t1 arr)).map FileRecord.status
      = (completeUpdate fn st t1 arr).map FileRecord.status
    ∧ audioCompleteUpdate fn st tr t2 (audioCompleteUpdate fn st tr t1 arr)
      = audioCompleteUpdate fn st tr t2 arr :=
  ⟨completeUpdate_collapse fn st t1 t2 arr,
   completeUpdate_map_status fn st t1 t2 arr,
   audioCompleteUpdate_collapse fn st tr t1 t2 arr⟩

/-! ## C10 -/

/-- C10: a completion-callback request that supplies `sessionId` and `filename`
but omits `status` is treated as status `ready` on both endpoints: the first
matching File Record (or the newly inserted one) ends up with status `ready`. -/
theorem complete_default_ready (body : CompleteBody) (files : List FileRecord)
    (now : Nat) (sid fn : String)
    (hsid : body.sessionId = some sid) (hsidne : sid ≠ "")
    (hfn : body.filename = some fn) (hfnne : fn ≠ "")
    (hst : body.status = none) :
    pdfCompleteHandler body files now = .ok (completeUpdate fn "ready" now files)
    ∧ findStatus fn (completeUpdate fn "ready" now files) = some "ready"
    ∧ audioCompleteHandler body files now
        = .ok (audioCompleteUpdate fn "ready" body.transcript now files)
    ∧ findStatus fn (audioCompleteUpdate fn "ready" body.transcript now files)
        = some "ready" := by
  refine ⟨?_, findStatus_completeUpdate fn "ready" now files, ?_,
    findStatus_audioCompleteUpdate fn "ready" body.transcript now files⟩
  · simp [pdfCompleteHandler, hsid, hfn, hst, hsidne, hfnne]
  · simp [audioCompleteHandler, hsid, hfn, hst, hsidne, hfnne]

/-- Witness for `complete_default_ready`: a `processing` record is flipped to
`ready` by a status-less callback. -/
theorem complete_default_ready_wit :
    pdfCompleteHandler noStatusBody [procRec] 5
      = .ok (completeUpdate "a.pdf" "ready" 5 [procRec])
    ∧ findStatus "a.pdf" (completeUpdate "a.pdf" "ready" 5 [procRec])
        = some "ready"
    ∧ audioCompleteHandler noStatusBody [procRec] 5
      = .ok (audioCompleteUpdate "a.pdf" "ready" noStatusBody.transcript 5 [procRec])
    ∧ findStatus "a.pdf"
        (audioCompleteUpdate "a.pdf" "ready" noStatusBody.transcript 5 [procRec])
        = some "ready" :=
  complete_default_ready noStatusBody [procRec] 5 "A" "a.pdf"
    rfl (by decide) rfl (by decide) rfl

end DocuMind

namespace DocuMind

/-! ## C1 -/

/-- C1 counterexample: a session with both a ready audio record and a ready PDF
record, whose PDF collection holds the session's only chunk; the chat endpoint
answers from the audio collection alone (`source = "audio"`), returns no docs
and an empty context — the PDF collection's chunk is never searched, so the two
kinds are not queried and merged. -/
theorem chat_both_ready_only_audio_cex :
    chat constRank echoLlm [readyRec] [readyRec] [] [docA] "A" "q"
        false false false
      = .answer placeholderContext [] "audio" 0
    ∧ docA.metadata.sessionId = "A" := by
  decide

/-- C1 amended: the chat endpoint queries exactly one kind's Vector Collection —
the audio collection whenever the session has a ready audio record (even when a
ready document record exists too), otherwise the PDF collection; the response is
then independent of the other kind's collection, so chunks of both kinds are
never merged. -/
theorem chat_audio_source_exclusive (rank : Ranker)
    (llm : String → String → String) (audioFiles pdfFiles : List FileRecord)
    (audioColl pdfColl pdfColl2 : List RetrievedDoc) (sessionId userQuery : String)
    (aff pff fb : Bool)
    (hq : userQuery ≠ "") (hA : hasReady audioFiles = true) :
    chat rank llm audioFiles pdfFiles audioColl pdfColl sessionId userQuery aff pff fb
      = chat rank llm audioFiles pdfFiles audioColl pdfColl2 sessionId userQuery
          aff pff fb
    ∧ (chat rank llm audioFiles pdfFiles audioColl pdfColl sessionId userQuery
          aff pff fb).sourceOf = some "audio" := by
  constructor
  · simp [chat, hq, hA]
  · simp [chat, hq, hA, ChatResponse.sourceOf]

/-- Witness for `chat_audio_source_exclusive`. -/
theorem chat_audio_source_exclusive_wit :
    chat constRank echoLlm [readyRec] [readyRec] [] [docA] "A" "q" false false false
      = chat constRank echoLlm [readyRec] [readyRec] [] [docB] "A" "q"
          false false false
    ∧ (chat constRank echoLlm [readyRec] [readyRec] [] [docA] "A" "q"
          false false false).sourceOf = some "audio" :=
  chat_audio_source_exclusive constRank echoLlm [readyRec] [readyRec] [] [docA]
    [docB] "A" "q" false false false (by decide) (by decide)

/-! ## C3 -/

/-- C3 counterexample: a session with a ready PDF record but an empty collection,
so the joined context is empty even after the fallback; the endpoint does not
return a fixed "couldn't find information" message — it invokes the Generation
Service (the response message tracks the service's output) with the placeholder
context. -/
theorem chat_empty_context_cex :
    chat constRank (constLlm "x") [] [readyRec] [] [] "A" "q" false false false
      = .answer "x" [] "pdf" 0
    ∧ chat constRank (constLlm "y") [] [readyRec] [] [] "A" "q" false false false
      = .answer "y" [] "pdf" 0
    ∧ chat constRank echoLlm [] [readyRec] [] [] "A" "q" false false false
      = .answer placeholderContext [] "pdf" 0 := by
  decide

/-- C3 amended: when the joined grounding context is still empty after the
fallback attempt (PDF branch), the chat endpoint still calls the Generation
Service, passing the fixed placeholder context in place of the empty one, and
returns the service's output with the primary docs list and `contextLength = 0`. -/
theorem chat_empty_context_llm_called (rank : Ranker)
    (llm : String → String → String) (audioFiles pdfFiles : List FileRecord)
    (audioColl pdfColl : List RetrievedDoc) (sessionId userQuery : String)
    (aff pff fb : Bool)
    (hq : userQuery ≠ "") (hA : hasReady audioFiles = false)
    (hP : hasReady pdfFiles = true)
    (hctx : chatContext rank (chatRetrieve rank false pdfColl sessionId userQuery pff)
        pdfColl sessionId fb = "") :
    chat rank llm audioFiles pdfFiles audioColl pdfColl sessionId userQuery aff pff fb
      = .answer (llm placeholderContext userQuery)
          (chatRetrieve rank false pdfColl sessionId userQuery pff) "pdf" 0 := by
  simp [chat, hq, hA, hP, hctx]

/-- Witness for `chat_empty_context_llm_called`. -/
theorem chat_empty_context_llm_called_wit :
    chat constRank echoLlm [] [readyRec] [] [] "A" "q" false false false
      = .answer (echoLlm placeholderContext "q")
          (chatRetrieve constRank false [] "A" "q" false) "pdf" 0 :=
  chat_empty_context_llm_called constRank echoLlm [] [readyRec] [] [] "A" "q"
    false false false (by decide) (by decide) (by decide) (by decide)

/-! ## C8 -/

/-- C8 counterexample: a PDF job whose loader yields zero documents ends exactly
like a storage failure — the server is notified `failed` and the error is
rethrown to the queue (`throw error; // let BullMQ handle retries`), so the
adapter failure receives no distinct terminal, non-retried treatment. -/
theorem pdfJob_empty_retried_cex :
    pdfJob ⟨some [], fun l => l, "t", true⟩ "A" "f.pdf" (some "d")
      = .errorRethrown (some "failed")
    ∧ pdfJob ⟨some [], fun l => l, "t", true⟩ "A" "f.pdf" (some "d")
      = pdfJob ⟨some ["page"], fun l => l, "t", false⟩ "A" "f.pdf" (some "d") := by
  decide

/-- C8 amended: when the loader yields zero documents, the job notifies the
completion callback with status `failed` and rethrows the error to the queue —
yielding an outcome identical to that of an embedding/storage failure, so the
queue's (uniform) redelivery policy applies to both alike; the worker implements
no separate non-retry path for adapter failures. -/
theorem pdfJob_adapter_like_storage (env env2 : PdfWorkerEnv)
    (sid fn data : String) (l : List String)
    (h : env.loadedDocs = some [])
    (h2 : env2.loadedDocs = some l) (hl : l ≠ [])
    (h3 : env2.storageOk = false) :
    pdfJob env sid fn (some data) = .errorRethrown (failNotify sid fn)
    ∧ pdfJob env sid fn (some data) = pdfJob env2 sid fn (some data) := by
  constructor
  · simp [pdfJob, h]
  · simp [pdfJob, h, h2, h3, hl]

/-- Witness for `pdfJob_adapter_like_storage`. -/
theorem pdfJob_adapter_like_storage_wit :
    pdfJob ⟨some [], fun l => l, "t", true⟩ "A" "f.pdf" (some "d")
      = .errorRethrown (failNotify "A" "f.pdf")
    ∧ pdfJob ⟨some [], fun l => l, "t", true⟩ "A" "f.pdf" (some "d")
      = pdfJob ⟨some ["page"], fun l => l, "t", false⟩ "A" "f.pdf" (some "d") :=
  pdfJob_adapter_like_storage ⟨some [], fun l => l, "t", true⟩
    ⟨some ["page"], fun l => l, "t", false⟩ "A" "f.pdf" "d" ["page"]
    rfl rfl (by decide) rfl

end DocuMind

namespace DocuMind

/-! ## C5 -/

/-- A completion update leaves the record at each position either unchanged or
bearing the supplied status. -/
theorem completeUpdate_status_at (fn st : String) (now : Nat) :
    ∀ (arr : List FileRecord) (i : Nat) (r : FileRecord),
      arr[i]? = some r →
      ∃ r2, (completeUpdate fn st now arr)[i]? = some r2
            ∧ (r2.status = r.status ∨ r2.status = st) := by
  intro arr
  induction arr with
  | nil => intro i r h; simp at h
  | cons a as ih =>
    intro i r h
    by_cases hfn : a.filename == fn
    · cases i with
      | zero =>
        simp only [List.getElem?_cons_zero, Option.some.injEq] at h
        subst h
        refine ⟨{ a with status := st, updatedAt := some now }, ?_, Or.inr rfl⟩
        simp [completeUpdate, hfn]
      | succ n =>
        simp only [List.getElem?_cons_succ] at h
        exact ⟨r, by simp [completeUpdate, hfn, h], Or.inl rfl⟩
    · cases i with
      | zero =>
        simp only [List.getElem?_cons_zero, Option.some.injEq] at h
        subst h
        exact ⟨a, by simp [completeUpdate, hfn], Or.inl rfl⟩
      | succ n =>
        simp only [List.getElem?_cons_succ] at h
        obtain ⟨r2, h2, hs⟩ := ih n r h
        exact ⟨r2, by simp [completeUpdate, hfn, h2], hs⟩

/-- One registry operation keeps every already-terminal record terminal, provided
the operation's effective status is terminal. -/
theorem stepOp_terminal_at (op : RegOp) (hop : opTerminalOnly op = true)
    (arr : List FileRecord) (i : Nat) (r : FileRecord)
    (h : arr[i]? = some r) (ht : isTerminal r.status = true) :
    ∃ r2, (stepOp op arr)[i]? = some r2 ∧ isTerminal r2.status = true := by
  cases op with
  | upload fn now =>
    refine ⟨r, ?_, ht⟩
    have hlen : i < arr.length := (List.getElem?_eq_some.mp h).1
    simpa [stepOp, List.getElem?_append, hlen] using h
  | complete fn st now =>
    obtain ⟨r2, h2, hs⟩ := completeUpdate_status_at fn (st.getD "ready") now arr i r h
    refine ⟨r2, h2, ?_⟩
    cases hs with
    | inl e => rw [e]; exact ht
    | inr e =>
      rw [e]
      simpa [opTerminalOnly] using hop

/-- C5 counterexample: starting from an empty session, the reachable sequence
upload → complete(`ready`) → complete(`processing`) leaves the record observable
as `processing` again — a completion-callback request may carry any status
string, including `processing`, and the handler applies it. -/
theorem registry_regress_cex :
    findStatus "a.pdf"
        (runOps [RegOp.upload "a.pdf" 0, RegOp.complete "a.pdf" (some "ready") 1,
                 RegOp.complete "a.pdf" (some "processing") 2] [])
      = some "processing"
    ∧ findStatus "a.pdf"
        (runOps [RegOp.upload "a.pdf" 0, RegOp.complete "a.pdf" (some "ready") 1] [])
      = some "ready" := by
  decide

/-- C5 amended: as long as every completion-callback invocation carries a
terminal effective status (`ready` or `failed` — the statuses the workers send;
an omitted status defaults to `ready`), a record that has reached a terminal
status stays terminal under any further sequence of uploads and callbacks and is
never observable as `processing` again.  The unrestricted claim fails because
the handler accepts arbitrary status strings and applies them verbatim. -/
theorem registry_terminal_persists (ops : List RegOp)
    (hops : ∀ op ∈ ops, opTerminalOnly op = true)
    (arr : List FileRecord) (i : Nat) (r : FileRecord)
    (h : arr[i]? = some r) (ht : isTerminal r.status = true) :
    ∃ r2, (runOps ops arr)[i]? = some r2 ∧ isTerminal r2.status = true := by
  induction ops generalizing arr r with
  | nil => exact ⟨r, h, ht⟩
  | cons op ops ih =>
    obtain ⟨r2, h2, ht2⟩ :=
      stepOp_terminal_at op (hops op (by simp)) arr i r h ht
    exact ih (fun o ho => hops o (by simp [ho])) (stepOp op arr) r2 h2 ht2

/-- Witness for `registry_terminal_persists`. -/
theorem registry_terminal_persists_wit :
    ∃ r2, (runOps [RegOp.complete "a.pdf" (some "failed") 7] [readyRec])[0]?
        = some r2 ∧ isTerminal r2.status = true :=
  registry_terminal_persists [RegOp.complete "a.pdf" (some "failed") 7]
    (by decide) [readyRec] 0 readyRec (by decide) (by decide)

end DocuMind

namespace DocuMind

/-! ## C6 -/

/-- A nonempty string has positive length. -/
theorem length_pos_iff_ne_empty (s : String) : 0 < s.length ↔ s ≠ "" := by
  constructor
  · intro h he; subst he; simp at h
  · intro h
    rcases Nat.eq_zero_or_pos s.length with hz | hp
    · exact absurd (String.ext (show s.data = "".data from List.length_eq_zero.mp hz)) h
    · exact hp

/-- Client-side filtering by session id only passes matching chunks. -/
theorem mem_filter_sessionId (l : List RetrievedDoc) (sid : String)
    (d : RetrievedDoc)
    (h : d ∈ l.filter (fun d => d.metadata.sessionId == sid)) :
    d.metadata.sessionId = sid := by
  have h2 := (List.mem_filter.mp h).2
  simpa using h2

/-- The server-side-filtered retriever only returns chunks of the session. -/
theorem mem_retrieverInvokeFiltered_sessionId (rank : Ranker)
    (hrank : ∀ q l d, d ∈ rank q l → d ∈ l)
    (coll : List RetrievedDoc) (sid : String) (k : Nat) (q : String)
    (d : RetrievedDoc) (h : d ∈ retrieverInvokeFiltered rank coll sid k q) :
    d.metadata.sessionId = sid := by
  unfold retrieverInvokeFiltered at h
  exact mem_filter_sessionId coll sid d (hrank _ _ _ (List.take_subset _ _ h))

/-- Every chunk produced by any branch of the chat endpoint's primary retrieval
belongs to the requested session. -/
theorem mem_chatRetrieve_sessionId (rank : Ranker)
    (hrank : ∀ q l d, d ∈ rank q l → d ∈ l)
    (b : Bool) (coll : List RetrievedDoc) (sid q : String) (ff : Bool)
    (d : RetrievedDoc) (hd : d ∈ chatRetrieve rank b coll sid q ff) :
    d.metadata.sessionId = sid := by
  unfold chatRetrieve at hd
  cases b with
  | true =>
    cases ff with
    | true =>
      rw [if_pos rfl, if_pos rfl] at hd
      exact mem_filter_sessionId _ sid d hd
    | false =>
      rw [if_pos rfl, if_neg (by simp)] at hd
      exact mem_retrieverInvokeFiltered_sessionId rank hrank coll sid 8 q d hd
  | false =>
    rw [if_neg (by simp)] at hd
    cases ff with
    | true =>
      rw [if_pos rfl] at hd
      exact mem_filter_sessionId _ sid d hd
    | false =>
      rw [if_neg (by simp)] at hd
      by_cases hlen :
          ((retrieverInvokeFiltered rank coll sid 10 q).length == 0) = true
      · rw [if_pos hlen] at hd
        exact mem_filter_sessionId _ sid d hd
      · rw [if_neg hlen] at hd
        exact mem_retrieverInvokeFiltered_sessionId rank hrank coll sid 10 q d hd

/-- The fallback's chunks all belong to the requested session. -/
theorem mem_chatFallbackDocs_sessionId (rank : Ranker) (coll : List RetrievedDoc)
    (sid : String) (d : RetrievedDoc) (hd : d ∈ chatFallbackDocs rank coll sid) :
    d.metadata.sessionId = sid :=
  mem_filter_sessionId _ sid d hd

/-- The docs of a chat response are empty or exactly the primary retrieval. -/
theorem chat_docsOf_cases (rank : Ranker) (llm : String → String → String)
    (audioFiles pdfFiles : List FileRecord) (audioColl pdfColl : List RetrievedDoc)
    (sid q : String) (aff pff fb : Bool) :
    (chat rank llm audioFiles pdfFiles audioColl pdfColl sid q aff pff fb).docsOf = []
    ∨ (chat rank llm audioFiles pdfFiles audioColl pdfColl sid q aff pff fb).docsOf
      = chatRetrieve rank (hasReady audioFiles)
          (if hasReady audioFiles then audioColl else pdfColl) sid q
          (if hasReady audioFiles then aff else pff) := by
  unfold chat
  by_cases hq : (q == "") = true
  · rw [if_pos hq]; left; rfl
  · rw [if_neg hq]
    by_cases hr : (!hasReady audioFiles && !hasReady pdfFiles) = true
    · rw [if_pos hr]; left; rfl
    · rw [if_neg hr]; right; rfl

/-- All chunks the tagging loop of the PDF worker persists carry the job's
session id. -/
theorem pdfTagGo_sessionId (sid fn pAt : String) (total : Nat) :
    ∀ (i : Nat) (chunks : List String) (d : RetrievedDoc),
      d ∈ pdfTagGo sid fn pAt total i chunks → d.metadata.sessionId = sid := by
  intro i chunks
  induction chunks generalizing i with
  | nil => intro d h; simp [pdfTagGo] at h
  | cons t ts ih =>
    intro d h
    simp only [pdfTagGo, List.mem_cons] at h
    cases h with
    | inl e => rw [e]
    | inr h2 => exact ih (i + 1) d h2

/-- The session key recorded by an upload is never empty. -/
theorem uploadSessionId_ne_empty (header : Option String) :
    uploadSessionId header ≠ "" := by
  cases header with
  | none => simp [uploadSessionId]
  | some h =>
    by_cases hh : (h == "") = true
    · simp [uploadSessionId, hh]
    · simp only [uploadSessionId, if_neg hh]
      simpa using hh

/-- C6: session isolation.  Under the contract that the vector search only
returns chunks stored in the queried collection, every chunk in a chat
response's docs list carries the requesting session's id — across the primary
filtered search, the broader unfiltered search and the failure paths — and
every chunk of the fallback likewise; moreover every chunk the PDF worker
persists carries the (never empty) session id of its originating upload. -/
theorem chat_session_isolation (rank : Ranker) (llm : String → String → String)
    (audioFiles pdfFiles : List FileRecord) (audioColl pdfColl : List RetrievedDoc)
    (sessionId userQuery : String) (aff pff fb : Bool)
    (hrank : ∀ q l d, d ∈ rank q l → d ∈ l) :
    (∀ d ∈ (chat rank llm audioFiles pdfFiles audioColl pdfColl sessionId userQuery
        aff pff fb).docsOf, d.metadata.sessionId = sessionId)
    ∧ (∀ d ∈ chatFallbackDocs rank
          (if hasReady audioFiles then audioColl else pdfColl) sessionId,
        d.metadata.sessionId = sessionId)
    ∧ (∀ (header : Option String) (fn pAt : String) (chunks : List String),
        ∀ d ∈ pdfTagChunks (uploadSessionId header) fn pAt chunks,
          d.metadata.sessionId = uploadSessionId header
          ∧ d.metadata.sessionId ≠ "") := by
  refine ⟨?_, ?_, ?_⟩
  · intro d hd
    rcases chat_docsOf_cases rank llm audioFiles pdfFiles audioColl pdfColl
        sessionId userQuery aff pff fb with he | he
    · rw [he] at hd; simp at hd
    · rw [he] at hd
      exact mem_chatRetrieve_sessionId rank hrank _ _ sessionId userQuery _ d hd
  · intro d hd
    exact mem_chatFallbackDocs_sessionId rank _ sessionId d hd
  · intro header fn pAt chunks d hd
    have h1 := pdfTagGo_sessionId (uploadSessionId header) fn pAt chunks.length 0
      chunks d hd
    exact ⟨h1, by rw [h1]; exact uploadSessionId_ne_empty header⟩

/-- Witness for `chat_session_isolation`: the chunk retrieved for session "A"
indeed carries session id "A". -/
theorem chat_session_isolation_wit : docA.metadata.sessionId = "A" :=
  (chat_session_isolation constRank echoLlm [] [readyRec] [] [docA] "A" "q"
      false false false (fun _ _ _ h => h)).1 docA (by decide)

end DocuMind

namespace DocuMind

/-! ## C7 and C9 -/

/-- Membership in the fallback's result decomposes into membership in the
top-20 unfiltered batch plus the session-id match. -/
theorem mem_chatFallbackDocs_iff (rank : Ranker) (coll : List RetrievedDoc)
    (sid : String) (d : RetrievedDoc) :
    d ∈ chatFallbackDocs rank coll sid
      ↔ d ∈ (rank "" coll).take 20 ∧ d.metadata.sessionId = sid := by
  unfold chatFallbackDocs retrieverInvoke
  rw [List.mem_filter]
  simp

/-- Joining a chunk list whose head has nonempty text yields a nonempty
context. -/
theorem joinDocs_ne_empty (d : RetrievedDoc) (ds : List RetrievedDoc)
    (h : d.pageContent ≠ "") : joinDocs (d :: ds) ≠ "" := by
  cases ds with
  | nil => simpa [joinDocs] using h
  | cons d2 ds2 =>
    intro he
    have hlen := congrArg String.length he
    have h0 : ("" : String).length = 0 := rfl
    have h2 : ("\n\n" : String).length = 2 := rfl
    simp only [joinDocs, String.length_append, h0, h2] at hlen
    omega

/-- `emptyQueryRank` only returns members of its input collection. -/
theorem emptyQueryRank_mem (q : String) (l : List RetrievedDoc) (d : RetrievedDoc)
    (h : d ∈ emptyQueryRank q l) : d ∈ l := by
  unfold emptyQueryRank at h
  by_cases hq : (q == "") = true
  · rwa [if_pos hq] at h
  · rw [if_neg hq] at h
    simp at h

/-- C7 amended: for a session with a ready document source (and no ready audio)
whose primary retrieval returns no chunks, the fallback produces a non-empty
grounding context if and only if at least one of the session's chunks appears
among the top-20 unfiltered empty-query batch — NOT merely iff the session has a
stored chunk: a session chunk ranked below the 20-chunk cap is missed.
(Chunks are assumed to carry nonempty text.) -/
theorem fallback_top20_iff (rank : Ranker) (llm : String → String → String)
    (audioFiles pdfFiles : List FileRecord) (audioColl pdfColl : List RetrievedDoc)
    (sessionId userQuery : String) (aff pff : Bool)
    (hrank : ∀ q l d, d ∈ rank q l → d ∈ l)
    (hq : userQuery ≠ "") (hA : hasReady audioFiles = false)
    (hP : hasReady pdfFiles = true)
    (hres : chatRetrieve rank false pdfColl sessionId userQuery pff = [])
    (hcontent : ∀ d ∈ pdfColl, d.pageContent ≠ "") :
    0 < (chat rank llm audioFiles pdfFiles audioColl pdfColl sessionId userQuery
        aff pff false).contextLengthOf
      ↔ ∃ d ∈ (rank "" pdfColl).take 20, d.metadata.sessionId = sessionId := by
  cases hfb : chatFallbackDocs rank pdfColl sessionId with
  | nil =>
    have hctx : chatContext rank ([] : List RetrievedDoc) pdfColl sessionId false
        = "" := by
      simp [chatContext, hfb]
    have hmain : (chat rank llm audioFiles pdfFiles audioColl pdfColl sessionId
        userQuery aff pff false).contextLengthOf = 0 := by
      simp [chat, hq, hA, hP, hres, hctx, ChatResponse.contextLengthOf]
    constructor
    · intro h
      rw [hmain] at h
      exact absurd h (by simp)
    · rintro ⟨d, hd, hsid⟩
      have hmem : d ∈ chatFallbackDocs rank pdfColl sessionId :=
        (mem_chatFallbackDocs_iff rank pdfColl sessionId d).mpr ⟨hd, hsid⟩
      rw [hfb] at hmem
      exact absurd hmem (List.not_mem_nil d)
  | cons d0 ds =>
    have hd0 : d0 ∈ chatFallbackDocs rank pdfColl sessionId := by
      rw [hfb]; exact List.mem_cons_self d0 ds
    obtain ⟨hd0take, hd0sid⟩ :=
      (mem_chatFallbackDocs_iff rank pdfColl sessionId d0).mp hd0
    have hd0coll : d0 ∈ pdfColl := hrank _ _ _ (List.take_subset _ _ hd0take)
    have hjoin : joinDocs (d0 :: ds) ≠ "" :=
      joinDocs_ne_empty d0 ds (hcontent d0 hd0coll)
    have hctx : chatContext rank ([] : List RetrievedDoc) pdfColl sessionId false
        = joinDocs (d0 :: ds) := by
      simp [chatContext, hfb]
    have hmain : (chat rank llm audioFiles pdfFiles audioColl pdfColl sessionId
        userQuery aff pff false).contextLengthOf = (joinDocs (d0 :: ds)).length := by
      simp [chat, hq, hA, hP, hres, hctx, ChatResponse.contextLengthOf]
    constructor
    · intro _
      exact ⟨d0, hd0take, hd0sid⟩
    · intro _
      rw [hmain]
      exact (length_pos_iff_ne_empty _).mpr hjoin

/-- Witness for `fallback_top20_iff`. -/
theorem fallback_top20_iff_wit :
    0 < (chat emptyQueryRank echoLlm [] [readyRec] [] [docA] "A" "q"
        false false false).contextLengthOf
      ↔ ∃ d ∈ (emptyQueryRank "" [docA]).take 20, d.metadata.sessionId = "A" :=
  fallback_top20_iff emptyQueryRank echoLlm [] [readyRec] [] [docA] "A" "q"
    false false emptyQueryRank_mem (by decide) (by decide) (by decide)
    (by decide) (by decide)

/-- C7 counterexample: the session's only chunk ranks 21st in the unfiltered
empty-query ordering, so the fallback's 20-chunk batch misses it: the session
has a stored chunk, yet the fallback context is empty (`contextLength = 0`). -/
theorem fallback_top20_cex :
    chat constRank echoLlm [] [readyRec] []
        (List.replicate 20 docB ++ [docA]) "A" "q" false true false
      = .answer placeholderContext [] "pdf" 0
    ∧ docA ∈ List.replicate 20 docB ++ [docA]
    ∧ docA.metadata.sessionId = "A" := by
  decide

/-- C9: when the primary retrieval returns zero chunks and the fallback recovers
a non-empty context, the response's docs list is still the empty primary result
— the chunks grounding the answer are not listed as sources — while
`contextLength` is positive. -/
theorem chat_fallback_docs_not_listed (rank : Ranker)
    (llm : String → String → String)
    (audioFiles pdfFiles : List FileRecord) (audioColl pdfColl : List RetrievedDoc)
    (sessionId userQuery : String) (aff pff : Bool)
    (hq : userQuery ≠ "") (hA : hasReady audioFiles = false)
    (hP : hasReady pdfFiles = true)
    (hres : chatRetrieve rank false pdfColl sessionId userQuery pff = [])
    (hfbne : chatFallbackDocs rank pdfColl sessionId ≠ [])
    (hjoin : joinDocs (chatFallbackDocs rank pdfColl sessionId) ≠ "") :
    chat rank llm audioFiles pdfFiles audioColl pdfColl sessionId userQuery
        aff pff false
      = .answer (llm (joinDocs (chatFallbackDocs rank pdfColl sessionId)) userQuery)
          [] "pdf" (joinDocs (chatFallbackDocs rank pdfColl sessionId)).length
    ∧ (chat rank llm audioFiles pdfFiles audioColl pdfColl sessionId userQuery
        aff pff false).docsOf = []
    ∧ 0 < (chat rank llm audioFiles pdfFiles audioColl pdfColl sessionId userQuery
        aff pff false).contextLengthOf := by
  have hctx : chatContext rank ([] : List RetrievedDoc) pdfColl sessionId false
      = joinDocs (chatFallbackDocs rank pdfColl sessionId) := by
    simp [chatContext, List.length_pos.mpr hfbne]
  have hmain : chat rank llm audioFiles pdfFiles audioColl pdfColl sessionId
      userQuery aff pff false
      = .answer (llm (joinDocs (chatFallbackDocs rank pdfColl sessionId)) userQuery)
          [] "pdf" (joinDocs (chatFallbackDocs rank pdfColl sessionId)).length := by
    simp [chat, hq, hA, hP, hres, hctx, hjoin]
  refine ⟨hmain, ?_, ?_⟩
  · rw [hmain]
    rfl
  · rw [hmain]
    exact (length_pos_iff_ne_empty _).mpr hjoin

/-- Witness for `chat_fallback_docs_not_listed`. -/
theorem chat_fallback_docs_not_listed_wit :
    chat emptyQueryRank echoLlm [] [readyRec] [] [docA] "A" "q" false false false
      = .answer (echoLlm (joinDocs (chatFallbackDocs emptyQueryRank [docA] "A")) "q")
          [] "pdf" (joinDocs (chatFallbackDocs emptyQueryRank [docA] "A")).length
    ∧ (chat emptyQueryRank echoLlm [] [readyRec] [] [docA] "A" "q" false false
        false).docsOf = []
    ∧ 0 < (chat emptyQueryRank echoLlm [] [readyRec] [] [docA] "A" "q" false false
        false).contextLengthOf :=
  chat_fallback_docs_not_listed emptyQueryRank echoLlm [] [readyRec] [] [docA]
    "A" "q" false false (by decide) (by decide) (by decide) (by decide)
    (by decide) (by decide)

end DocuMind
